import Mathlib

/-!
Verification development for the generative-melody core of the music-room
repository (playground/generator_2).  The TypeScript sources are embedded
shallowly:

* JS numbers are modelled as exact rationals (`ℚ`); the code only compares
  and linearly combines small constants, so no float-specific behaviour is
  claim-relevant.
* Note tokens such as "G#4" are modelled as a structured `Pitch`
  (letter index 0=C .. 6=B, alteration, octave).  String equality on
  well-formed tokens corresponds to structural equality of `Pitch`.
* The external Tonal.js calls used by `noteUtils.ts`
  (`Interval.distance`/`semitones`, `Note.transpose` with
  `Interval.fromSemitones`, `Note.simplify`) are modelled by their
  documented coordinate semantics (`Pitch.tonalTranspose`, `Pitch.simplify`).
* `Math.random()` is modelled as an injected deterministic source
  `rng : ℕ → ℚ` together with a draw index threaded through the state,
  mirroring the exact order in which the code consumes random draws
  (including `&&` short-circuiting).
* The chord/scale provider (`ChordProgressionManager`) and the synthesis
  backend are external collaborators per the spec; they appear as
  parameters of `MelodyEnv`, and an emitted synthesis directive is the
  observable output of `GenerativeMelody.scheduleNote`.
-/

/-- A pitch token `<letter>[accidental]<octave>`: `letter` 0=C,1=D,...,6=B,
`alter` the accidental offset (#=+1, b=-1), `octave` the octave number. -/
structure Pitch where
  letter : ℕ
  alter : ℤ
  octave : ℤ
deriving DecidableEq

instance : Inhabited Pitch := ⟨⟨0, 0, 0⟩⟩

/-- Semitone offset of each natural letter within an octave (C,D,E,F,G,A,B). -/
def letterSemis (l : ℕ) : ℤ := [(0 : ℤ), 2, 4, 5, 7, 9, 11].getD l 0

/-- Absolute chromatic height of a pitch (differences of this value are the
semitone distances Tonal.js reports between two pitched notes). -/
def Pitch.chroma (p : Pitch) : ℤ := letterSemis p.letter + p.alter + 12 * p.octave

/-- Interval-number table of Tonal's `Interval.fromSemitones`
(`IN = [1,2,2,3,3,4,5,5,6,6,7,7]`). -/
def intervalNumberOfSemitones (m : ℕ) : ℕ :=
  [1, 2, 2, 3, 3, 4, 5, 5, 6, 6, 7, 7].getD (m % 12) 1 + 7 * (m / 12)

/-- Tonal.js `Note.transpose(note, Interval.fromSemitones n)`: the letter
moves by the interval number in the interval's direction, and the
alteration is chosen so the chromatic height moves by exactly `n`. -/
def Pitch.tonalTranspose (p : Pitch) (n : ℤ) : Pitch :=
  let num := intervalNumberOfSemitones n.natAbs
  let dir : ℤ := if n < 0 then -1 else 1
  let li : ℤ := (p.letter : ℤ) + dir * ((num : ℤ) - 1)
  let letter' : ℤ := (li % 7 + 7) % 7
  let octave' : ℤ := p.octave + (li - letter') / 7
  { letter := letter'.toNat
    alter := (p.chroma + n) - (letterSemis letter'.toNat + 12 * octave')
    octave := octave' }

/-- Canonical sharp spelling of a pitch class 0..11 (`(letter, alter)`),
the `midiToNoteName` sharps table of Tonal.js. -/
def sharpSpelling (pc : ℕ) : ℕ × ℤ :=
  [((0 : ℕ), (0 : ℤ)), (0, 1), (1, 0), (1, 1), (2, 0), (3, 0), (3, 1),
   (4, 0), (4, 1), (5, 0), (5, 1), (6, 0)].getD pc (0, 0)

/-- Canonical flat spelling of a pitch class 0..11, the `midiToNoteName`
flats table of Tonal.js. -/
def flatSpelling (pc : ℕ) : ℕ × ℤ :=
  [((0 : ℕ), (0 : ℤ)), (1, -1), (1, 0), (2, -1), (2, 0), (3, 0), (4, -1),
   (4, 0), (5, -1), (5, 0), (6, -1), (6, 0)].getD pc (0, 0)

/-- Tonal.js `Note.simplify`: respell the note canonically from its height,
using sharps when the original alteration was positive, flats otherwise. -/
def Pitch.simplify (p : Pitch) : Pitch :=
  let c := p.chroma
  let pc : ℤ := (c % 12 + 12) % 12
  let oct : ℤ := (c - pc) / 12
  let s := (if p.alter > 0 then sharpSpelling else flatSpelling) pc.toNat
  ⟨s.1, s.2, oct⟩

/-- `noteUtils.normalizeNote`: `Note.simplify` (its manual double-accidental
fallbacks only fire on inputs where Tonal itself failed, which cannot
happen for a structurally well-formed pitch). -/
def normalizeNote (p : Pitch) : Pitch := p.simplify

/-- `noteUtils.transposeNote`: transpose by semitones, then normalize. -/
def transposeNote (p : Pitch) (semitones : ℤ) : Pitch :=
  normalizeNote (p.tonalTranspose semitones)

/-- `noteUtils.getIntervalSemitones`: absolute semitone distance. -/
def getIntervalSemitones (fromNote toNote : Pitch) : ℕ :=
  (toNote.chroma - fromNote.chroma).natAbs

/-- `distance < minDistance` where `minDistance` starts at JS `Infinity`
(`none`). -/
def ltOpt (d : ℕ) : Option ℕ → Bool
  | none => true
  | some m => d < m

/-- Loop body of `noteUtils.findNearestChordTone`. -/
def fncStep (fromNote : Pitch) (acc : Option ℕ × Pitch) (tone : Pitch) :
    Option ℕ × Pitch :=
  let d := getIntervalSemitones fromNote tone
  if ltOpt d acc.1 ∧ 0 < d then (some d, tone) else acc

/-- `noteUtils.findNearestChordTone` (the `scale` argument is unused in the
source as well). -/
def findNearestChordTone (fromNote : Pitch) (chordTones : List Pitch)
    (scale : List Pitch) : Pitch :=
  match chordTones with
  | [] => fromNote
  | t0 :: _ => (chordTones.foldl (fncStep fromNote) (none, t0)).2

/-- `getNoteChromatic` of `noteUtils.ts` on a pitch-class `(letter, alter)`
pair (the source's name→index table, e.g. B#=0, Cb=11). -/
def pcChroma (pc : ℕ × ℤ) : ℤ := (letterSemis pc.1 + pc.2) % 12

/-- Octave-assignment walk of `noteUtils.getFullScale`: the octave
increments whenever a note's chromatic index drops below the previous
note's. -/
def buildScale : List (ℕ × ℤ) → ℤ → ℤ → List Pitch
  | [], _, _ => []
  | n :: rest, prevChroma, curOct =>
    let c := pcChroma n
    let oct := if c < prevChroma then curOct + 1 else curOct
    ⟨n.1, n.2, oct⟩ :: buildScale rest c oct

/-- `noteUtils.getFullScale` applied to the pitch-class list the external
`Scale.get` returned for the configured key and mode. -/
def getFullScale (scaleNotes : List (ℕ × ℤ)) (octave : ℤ) : List Pitch :=
  match scaleNotes with
  | [] => []
  | root :: rest => ⟨root.1, root.2, octave⟩ :: buildScale rest (pcChroma root) octave

/-- JS `Array.prototype.indexOf` returning `-1` when absent. -/
def jsIndexOfAux (x : Pitch) : List Pitch → ℕ → ℤ
  | [], _ => -1
  | y :: ys, i => if y = x then (i : ℤ) else jsIndexOfAux x ys (i + 1)

/-- Enharmonic fallback loop of `NoteSelector.findNoteInScale`: first scale
position at semitone distance 0 from the note, else `-1`. -/
def enhIndexAux (note : Pitch) : List Pitch → ℕ → ℤ
  | [], _ => -1
  | y :: ys, i =>
    if getIntervalSemitones note y = 0 then (i : ℤ) else enhIndexAux note ys (i + 1)

/-- `NoteSelector.findNoteInScale`: exact index, else enharmonic match,
else `-1`. -/
def NoteSelector.findNoteInScale (note : Pitch) (scale : List Pitch) : ℤ :=
  let e := jsIndexOfAux note scale 0
  if e ≠ -1 then e else enhIndexAux note scale 0

/-- `scale[i]` on an index the source has already bounds-checked. -/
def getAt (l : List Pitch) (i : ℤ) : Pitch := l.getD i.toNat default

/-- `NoteSelector` direction state. -/
structure DirectionState where
  direction : ℤ
  stepsInDirection : ℕ
deriving DecidableEq

/-- Fresh direction state (constructor / `NoteSelector.reset`). -/
def DirectionState.init : DirectionState := ⟨1, 0⟩

/-- `NoteSelector.reverseDirection`. -/
def DirectionState.reverse (ds : DirectionState) : DirectionState :=
  ⟨ds.direction * -1, 0⟩

/-- `MelodicBehavior` configuration of `melodyConfig.ts`. -/
structure MelodicBehavior where
  minRange : Pitch
  maxRange : Pitch
  maxStepsInDirection : ℕ
  directionChangeBase : ℚ
  directionChangeProbability : ℚ
  strongBeatRestReduction : ℚ
  preferredStartInterval : ℕ
  rootPreference : ℚ

/-- First loop of `NoteSelector.selectSimpleChordTone`: nearest chord tone
at positive distance at most 4 semitones. -/
def sctLoop1 (fromNote : Pitch) (acc : Option ℕ × Pitch) (tone : Pitch) :
    Option ℕ × Pitch :=
  let d := getIntervalSemitones fromNote tone
  if 0 < d ∧ d ≤ 4 ∧ ltOpt d acc.1 then (some d, tone) else acc

/-- Second loop of `NoteSelector.selectSimpleChordTone`: chord tone in the
current direction with the smallest absolute scale step. -/
def sctLoop2 (ds : DirectionState) (scale : List Pitch) (fromIndex : ℤ)
    (acc : Option ℕ × Pitch) (tone : Pitch) : Option ℕ × Pitch :=
  let ti := NoteSelector.findNoteInScale tone scale
  if ti ≠ -1 then
    let step := ti - fromIndex
    if ((ds.direction > 0 ∧ step > 0) ∨ (ds.direction < 0 ∧ step < 0)) ∧
        ltOpt step.natAbs acc.1 then
      (some step.natAbs, tone)
    else acc
  else acc

/-- `NoteSelector.selectSimpleChordTone`. -/
def NoteSelector.selectSimpleChordTone (ds : DirectionState) (fromNote : Pitch)
    (chordTones scale : List Pitch) : Pitch :=
  match chordTones with
  | [] => fromNote
  | t0 :: _ =>
    let r1 := chordTones.foldl (sctLoop1 fromNote) (none, t0)
    if r1.1 = none then
      let fi := NoteSelector.findNoteInScale fromNote scale
      if fi ≠ -1 then (chordTones.foldl (sctLoop2 ds scale fi) (none, r1.2)).2
      else r1.2
    else r1.2

/-- First loop of `NoteSelector.selectScaleStepTowardChordTone`: target
chord-tone scale index in the preferred direction (`acc = (minSteps,
targetIndex)`). -/
def sstLoop1 (ds : DirectionState) (scale : List Pitch) (currentIndex : ℤ)
    (acc : Option ℕ × ℤ) (tone : Pitch) : Option ℕ × ℤ :=
  let ti := NoteSelector.findNoteInScale tone scale
  if ti = -1 then acc
  else
    let steps := ti - currentIndex
    if ((ds.direction > 0 ∧ steps > 0) ∨ (ds.direction < 0 ∧ steps < 0)) ∧
        ltOpt steps.natAbs acc.1 then
      (some steps.natAbs, ti)
    else acc

/-- Fallback loop of `NoteSelector.selectScaleStepTowardChordTone`: closest
chord tone regardless of direction. -/
def sstLoop2 (scale : List Pitch) (currentIndex : ℤ) (acc : Option ℕ × ℤ)
    (tone : Pitch) : Option ℕ × ℤ :=
  let ti := NoteSelector.findNoteInScale tone scale
  if ti ≠ -1 ∧ ti ≠ currentIndex then
    let dist := (ti - currentIndex).natAbs
    if ltOpt dist acc.1 then (some dist, ti) else acc
  else acc

/-- `NoteSelector.selectScaleStepTowardChordTone`: find a target chord tone,
then move one scale step toward it. -/
def NoteSelector.selectScaleStepTowardChordTone (ds : DirectionState)
    (currentIndex : ℤ) (scale chordTones : List Pitch) : Pitch :=
  let r1 := chordTones.foldl (sstLoop1 ds scale currentIndex) (none, -1)
  let r := if r1.2 = -1 then chordTones.foldl (sstLoop2 scale currentIndex) r1 else r1
  if r.2 ≠ -1 ∧ r.2 ≠ currentIndex then
    let step : ℤ := if r.2 > currentIndex then 1 else -1
    let nextIndex := currentIndex + step
    if 0 ≤ nextIndex ∧ nextIndex < (scale.length : ℤ) then getAt scale nextIndex
    else getAt scale currentIndex
  else getAt scale currentIndex

/-- First-with-minimal-key pick, the head of the stable sort in
`NoteSelector.selectDirectionalChordTone`. -/
def argminFirst (key : Pitch → ℕ) : Pitch → List Pitch → Pitch
  | best, [] => best
  | best, c :: cs =>
    if key c < key best then argminFirst key c cs else argminFirst key best cs

/-- `NoteSelector.selectDirectionalChordTone`: chord tone within 5 scale
steps in the current direction, preferring the smallest interval. -/
def NoteSelector.selectDirectionalChordTone (ds : DirectionState)
    (fromNote : Pitch) (chordTones scale : List Pitch) : Pitch :=
  let fi := NoteSelector.findNoteInScale fromNote scale
  if fi = -1 then
    match chordTones with
    | [] => fromNote
    | t :: _ => t
  else
    let candidates := chordTones.filter fun tone =>
      let ti := NoteSelector.findNoteInScale tone scale
      ti ≠ -1 ∧
        ((ds.direction > 0 ∧ ti - fi > 0 ∧ ti - fi ≤ 5) ∨
         (ds.direction < 0 ∧ ti - fi < 0 ∧ ti - fi ≥ -5))
    match candidates with
    | [] => NoteSelector.selectSimpleChordTone ds fromNote chordTones scale
    | c0 :: cs =>
      argminFirst (fun c => (NoteSelector.findNoteInScale c scale - fi).natAbs) c0 cs

/-- `NoteSelector.selectApproachNote`: one scale step in the current
direction, reversing the direction at the scale-range edges. -/
def NoteSelector.selectApproachNote (ds : DirectionState) (currentIndex : ℤ)
    (scale : List Pitch) : Pitch × DirectionState :=
  let ni := currentIndex + ds.direction
  if 0 ≤ ni ∧ ni < (scale.length : ℤ) then (getAt scale ni, ds)
  else
    let ds' : DirectionState := { ds with direction := ds.direction * -1 }
    let ni2 := currentIndex + ds'.direction
    if 0 ≤ ni2 ∧ ni2 < (scale.length : ℤ) then (getAt scale ni2, ds')
    else (getAt scale currentIndex, ds')

/-- `NoteSelector.selectDissonantNote`: chromatic neighbor of the last note,
direction chosen by one random draw. -/
def NoteSelector.selectDissonantNote (r : ℚ) (fromNote : Pitch) : Pitch :=
  transposeNote fromNote (if r < 1 / 2 then 1 else -1)

/-- `NoteSelector.constrainToRange`: transpose up an octave below the floor
pitch (unreachable, distances being absolute), down an octave above the
ceiling. -/
def NoteSelector.constrainToRange (cfg : MelodicBehavior) (note : Pitch) : Pitch :=
  let semitones := getIntervalSemitones cfg.minRange note
  if (semitones : ℤ) < 0 then transposeNote note 12
  else
    let rangeSemitones := getIntervalSemitones cfg.minRange cfg.maxRange
    if semitones > rangeSemitones then transposeNote note (-12) else note

/-- `NoteSelector.updateDirectionTracking`; consumes one random draw only
when the step counter has reached the complexity-scaled maximum. -/
def NoteSelector.updateDirectionTracking (rng : ℕ → ℚ) (cfg : MelodicBehavior)
    (complexity : ℚ) (currentIndex newIndex : ℤ) (ds : DirectionState)
    (ridx : ℕ) : DirectionState × ℕ :=
  if newIndex = -1 ∨ currentIndex = -1 then (ds, ridx)
  else
    let actual : ℤ := if newIndex > currentIndex then 1 else -1
    let ds :=
      if actual = ds.direction then
        { ds with stepsInDirection := ds.stepsInDirection + 1 }
      else ⟨actual, 1⟩
    let maxSteps : ℤ := cfg.maxStepsInDirection + ⌊complexity * cfg.directionChangeBase⌋
    if (ds.stepsInDirection : ℤ) ≥ maxSteps then
      if rng ridx < cfg.directionChangeProbability then
        (⟨ds.direction * -1, 0⟩, ridx + 1)
      else (ds, ridx + 1)
    else (ds, ridx)

/-- `NoteSelector.shouldRest`: one draw against the (strong-beat-reduced)
rest probability. -/
def NoteSelector.shouldRest (rng : ℕ → ℚ) (cfg : MelodicBehavior)
    (restProbability : ℚ) (isStrongBeat : Bool) (ridx : ℕ) : Bool × ℕ :=
  let effectiveProb :=
    if isStrongBeat then restProbability * cfg.strongBeatRestReduction
    else restProbability
  (decide (rng ridx < effectiveProb), ridx + 1)

/-- `NoteSelector.selectStartingNote`: root with probability
`rootPreference`, else the configured preferred-interval index; the
empty-input fallback "A4" returns before any draw. -/
def NoteSelector.selectStartingNote (rng : ℕ → ℚ) (cfg : MelodicBehavior)
    (chordTones : List Pitch) (ridx : ℕ) : Pitch × ℕ :=
  if chordTones.length = 0 then (⟨5, 0, 4⟩, ridx)
  else
    let startIndex :=
      if rng ridx < cfg.rootPreference then 0
      else if chordTones.length > cfg.preferredStartInterval then
        cfg.preferredStartInterval
      else 0
    (getAt chordTones startIndex, ridx + 1)

/-- `MotifMemory` store: FIFO list of motifs. -/
structure MotifMemory where
  motifs : List (List Pitch)
deriving DecidableEq

/-- `MotifMemory.maxMotifs`. -/
def MotifMemory.maxMotifs : ℕ := 3

/-- `MotifMemory.repeatProbability`. -/
def MotifMemory.repeatProbability : ℚ := 3 / 10

/-- JS `notes.slice(-4)`: the last (at most) four elements. -/
def lastFour {α : Type} (l : List α) : List α := l.drop (l.length - 4)

/-- `MotifMemory.recordMotif`: store the last four notes when at least three
are supplied; FIFO-evict the oldest past capacity 3. -/
def MotifMemory.recordMotif (m : MotifMemory) (notes : List Pitch) : MotifMemory :=
  if 3 ≤ notes.length then
    let pushed := m.motifs ++ [lastFour notes]
    ⟨if MotifMemory.maxMotifs < pushed.length then pushed.tail else pushed⟩
  else m

/-- `MotifMemory.shouldRepeatMotif`; `&&` short-circuits, so the draw is
consumed only when the store is non-empty. -/
def MotifMemory.shouldRepeatMotif (rng : ℕ → ℚ) (m : MotifMemory)
    (complexityLevel : ℚ) (ridx : ℕ) : Bool × ℕ :=
  let adjustedProbability :=
    MotifMemory.repeatProbability * (1 / 2 + complexityLevel * (1 / 2))
  if 0 < m.motifs.length then
    (decide (rng ridx < adjustedProbability), ridx + 1)
  else (false, ridx)

/-- `MotifMemory.transpose`: Tonal `Note.transpose` on each note (no
normalization in the source). -/
def MotifMemory.transpose (motif : List Pitch) (semitones : ℤ) : List Pitch :=
  motif.map fun note => note.tonalTranspose semitones

/-- The motif `getVariedMotif` picks with its first draw. -/
def MotifMemory.pickedMotif (rng : ℕ → ℚ) (m : MotifMemory) (ridx : ℕ) :
    List Pitch :=
  m.motifs.getD (⌊rng ridx * m.motifs.length⌋).toNat []

/-- `MotifMemory.getVariedMotif`: null when empty, else a uniformly picked
motif with one of transpose-up / transpose-down / retrograde applied. -/
def MotifMemory.getVariedMotif (rng : ℕ → ℚ) (m : MotifMemory) (ridx : ℕ) :
    Option (List Pitch) × ℕ :=
  if m.motifs.length = 0 then (none, ridx)
  else
    let motif := MotifMemory.pickedMotif rng m ridx
    let variationType := ⌊rng (ridx + 1) * 3⌋
    let res :=
      if variationType = 0 then MotifMemory.transpose motif 2
      else if variationType = 1 then MotifMemory.transpose motif (-2)
      else if variationType = 2 then motif.reverse
      else motif
    (some res, ridx + 2)

/-- `MotifMemory.clear`. -/
def MotifMemory.clear (_ : MotifMemory) : MotifMemory := ⟨[]⟩

/-- `PhraseStructure`: cyclic counter over `barsPerPhrase × beatsPerBar`
decision beats. -/
structure PhraseStructure where
  barsPerPhrase : ℕ
  beatsPerBar : ℕ
  totalBeats : ℕ
  currentBeat : ℕ
deriving DecidableEq

/-- `PhraseStructure` constructor (`beatsPerBar` defaults to 4). -/
def PhraseStructure.init (barsPerPhrase : ℕ) (beatsPerBar : ℕ := 4) :
    PhraseStructure :=
  ⟨barsPerPhrase, beatsPerBar, barsPerPhrase * beatsPerBar, 0⟩

/-- `PhraseStructure.advance`: increment modulo the phrase length. -/
def PhraseStructure.advance (p : PhraseStructure) : PhraseStructure :=
  { p with currentBeat := (p.currentBeat + 1) % p.totalBeats }

/-- `PhraseStructure.shouldResolve`: true only on the last beat of the
phrase. -/
def PhraseStructure.shouldResolve (p : PhraseStructure) : Bool :=
  p.currentBeat = p.totalBeats - 1

/-- `PhraseStructure.reset`. -/
def PhraseStructure.reset (p : PhraseStructure) : PhraseStructure :=
  { p with currentBeat := 0 }

/-- The five fixed duration-pattern families of `RhythmicPattern`. -/
inductive PatternFamily
  | simple
  | syncopated
  | swung
  | varied
  | triplet
deriving DecidableEq

/-- Duration tokens (JS strings, modelled as character lists) of each
pattern family. -/
def patternTokens : PatternFamily → List (List Char)
  | .simple => [['8', 'n'], ['8', 'n'], ['8', 'n'], ['8', 'n']]
  | .syncopated => [['8', 'n'], ['1', '6', 'n'], ['1', '6', 'n'], ['8', 'n']]
  | .swung => [['8', 'n', '.'], ['1', '6', 'n'], ['8', 'n'], ['8', 'n']]
  | .varied => [['4', 'n'], ['8', 'n'], ['1', '6', 'n'], ['1', '6', 'n'], ['8', 'n']]
  | .triplet => [['8', 't'], ['8', 't'], ['8', 't']]

/-- `RhythmicPattern` state: the currently selected family and the single
shared cyclic token index. -/
structure RhythmicPattern where
  currentPattern : PatternFamily
  patternIndex : ℕ
deriving DecidableEq

/-- `RhythmicPattern` constructor. -/
def RhythmicPattern.init : RhythmicPattern := ⟨.simple, 0⟩

/-- `RhythmicPattern.getNextDuration`: family selection by variation amount
(consuming a draw except below 0.2), then the shared cyclic index picks the
token and increments. -/
def RhythmicPattern.getNextDuration (rng : ℕ → ℚ) (rp : RhythmicPattern)
    (variationAmount : ℚ) (ridx : ℕ) : List Char × RhythmicPattern × ℕ :=
  let fr : PatternFamily × ℕ :=
    if variationAmount < 1 / 5 then (.simple, ridx)
    else if variationAmount < 1 / 2 then
      (if rng ridx < 7 / 10 then .simple else .syncopated, ridx + 1)
    else if variationAmount < 4 / 5 then
      ([PatternFamily.syncopated, .swung, .varied].getD
        (⌊rng ridx * 3⌋).toNat .syncopated, ridx + 1)
    else
      ([PatternFamily.syncopated, .swung, .varied, .triplet].getD
        (⌊rng ridx * 4⌋).toNat .syncopated, ridx + 1)
  let pattern := patternTokens fr.1
  let duration := pattern.getD (rp.patternIndex % pattern.length) ['8', 'n']
  (duration, ⟨fr.1, rp.patternIndex + 1⟩, fr.2)

/-- `RhythmicPattern.reset`: zero the shared index (the family persists, as
in the source). -/
def RhythmicPattern.reset (rp : RhythmicPattern) : RhythmicPattern :=
  { rp with patternIndex := 0 }

/-- Numeric value of a digit string (JS `parseInt(value, 10)` on the digits
the regex captured). -/
def natOfDigits (ds : List Char) : ℕ :=
  ds.foldl (fun a c => 10 * a + (c.toNat - 48)) 0

/-- The regex `^(\d+)([nth])(\.?)$` of `RhythmicPattern.parseDuration`:
digits, a unit letter, and whether a trailing dot is present. -/
def parseDurToken (tok : List Char) : Option (ℕ × Char × Bool) :=
  let ds := tok.takeWhile Char.isDigit
  let rest := tok.dropWhile Char.isDigit
  if ds.isEmpty then none
  else
    match rest with
    | [u] => if u = 'n' ∨ u = 't' ∨ u = 'h' then some (natOfDigits ds, u, false) else none
    | [u, d] =>
      if (u = 'n' ∨ u = 't' ∨ u = 'h') ∧ d = '.' then some (natOfDigits ds, u, true)
      else none
    | _ => none

/-- `RhythmicPattern.parseDuration`: token beats (`4/denom` for n,
`(4/denom)×(2/3)` for t, `denom×2` for h, `×1.5` for a dot; default half a
beat) times the beat duration in seconds. -/
def RhythmicPattern.parseDuration (tok : List Char) (beatDuration : ℚ) : ℚ :=
  match parseDurToken tok with
  | none => beatDuration * (1 / 2)
  | some (numValue, unit, dot) =>
    let beats : ℚ :=
      if unit = 'n' then 4 / numValue
      else if unit = 't' then 4 / numValue * (2 / 3)
      else if unit = 'h' then numValue * 2
      else 1
    let beats := if dot then beats * (3 / 2) else beats
    beats * beatDuration

/-- Complexity scaling factors (`ComplexityScaling` of `melodyConfig.ts`). -/
structure ComplexityScaling where
  passingToneMax : ℚ
  rhythmicVariationMax : ℚ
  phraseAwarenessMax : ℚ
  dissonanceToleranceMax : ℚ
  restProbabilityBase : ℚ
  restProbabilityRange : ℚ

/-- The five complexity-derived parameters. -/
structure ComplexityParams where
  passingToneProbability : ℚ
  rhythmicVariation : ℚ
  phraseAwareness : ℚ
  dissonanceTolerance : ℚ
  restProbability : ℚ
deriving DecidableEq

/-- `calculateComplexityParams`: clamp the complexity to [0,1], then apply
the fixed linear scalings. -/
def calculateComplexityParams (complexity : ℚ) (scaling : ComplexityScaling) :
    ComplexityParams :=
  let clampedComplexity := max 0 (min 1 complexity)
  { passingToneProbability := clampedComplexity * scaling.passingToneMax
    rhythmicVariation := clampedComplexity * scaling.rhythmicVariationMax
    phraseAwareness := clampedComplexity * scaling.phraseAwarenessMax
    dissonanceTolerance := clampedComplexity * scaling.dissonanceToleranceMax
    restProbability :=
      scaling.restProbabilityBase - clampedComplexity * scaling.restProbabilityRange }

/-- The melody configuration surface used by the generation core (the
envelope/delay/synth blocks configure only the external synthesis
collaborator and are omitted). -/
structure MelodyConfig where
  complexity : ComplexityScaling
  melodic : MelodicBehavior
  noteOverlapMs : ℚ
  barsPerPhrase : ℕ
  initialComplexity : ℚ

/-- `DEFAULT_MELODY_CONFIG` (generation-relevant part); ranges A3–E5. -/
def DEFAULT_MELODY_CONFIG : MelodyConfig :=
  { complexity :=
      { passingToneMax := 3 / 10
        rhythmicVariationMax := 4 / 10
        phraseAwarenessMax := 7 / 10
        dissonanceToleranceMax := 15 / 100
        restProbabilityBase := 5 / 10
        restProbabilityRange := 3 / 10 }
    melodic :=
      { minRange := ⟨5, 0, 3⟩
        maxRange := ⟨2, 0, 5⟩
        maxStepsInDirection := 3
        directionChangeBase := 2
        directionChangeProbability := 6 / 10
        strongBeatRestReduction := 3 / 10
        preferredStartInterval := 2
        rootPreference := 7 / 10 }
    noteOverlapMs := 50
    barsPerPhrase := 4
    initialComplexity := 5 / 10 }

/-- Source tag of a note selection (the `source` strings of
`GenerativeMelody.selectNoteByComplexity`). -/
inductive NoteSource
  | simpleChord
  | chordStrong
  | scaleStep
  | directionalChord
  | approach
  | motif
  | dissonant
  | resolution
  | elaborateStrong
  | elaborateWeak
deriving DecidableEq

/-- The orchestrator fields `selectNoteByComplexity` may mutate, plus the
random-draw index. -/
structure SelCtx where
  ds : DirectionState
  needsResolution : Bool
  ridx : ℕ
deriving DecidableEq

/-- `GenerativeMelody.selectElaborateNote`: scale step toward a chord tone
on strong beats, approach note on weak beats. -/
def GenerativeMelody.selectElaborateNote (ctx : SelCtx) (currentIndex : ℤ)
    (scale chordTones : List Pitch) (isStrongBeat : Bool) :
    (Pitch × NoteSource) × SelCtx :=
  if isStrongBeat then
    ((NoteSelector.selectScaleStepTowardChordTone ctx.ds currentIndex scale chordTones,
      .elaborateStrong), ctx)
  else
    let r := NoteSelector.selectApproachNote ctx.ds currentIndex scale
    ((r.1, .elaborateWeak), { ctx with ds := r.2 })

/-- `GenerativeMelody.selectNoteByComplexity`: the five-tier dispatch.
Random draws are consumed exactly as in the source: none in tiers 1–3; in
tier 4 one draw when the motif store is non-empty plus two on a granted
recall; in tier 5 always one dissonance draw plus one direction draw on the
dissonant branch. -/
def GenerativeMelody.selectNoteByComplexity (rng : ℕ → ℚ) (complexity : ℚ)
    (params : ComplexityParams) (motifs : MotifMemory) (lastNote : Pitch)
    (currentIndex : ℤ) (scale chordTones : List Pitch) (isStrongBeat : Bool)
    (ctx : SelCtx) : (Pitch × NoteSource) × SelCtx :=
  if complexity ≤ 1 / 10 then
    ((NoteSelector.selectSimpleChordTone ctx.ds lastNote chordTones scale,
      .simpleChord), ctx)
  else if complexity ≤ 3 / 10 then
    if isStrongBeat then
      ((NoteSelector.selectSimpleChordTone ctx.ds lastNote chordTones scale,
        .chordStrong), ctx)
    else
      ((NoteSelector.selectScaleStepTowardChordTone ctx.ds currentIndex scale chordTones,
        .scaleStep), ctx)
  else if complexity ≤ 5 / 10 then
    if isStrongBeat then
      ((NoteSelector.selectDirectionalChordTone ctx.ds lastNote chordTones scale,
        .directionalChord), ctx)
    else
      let r := NoteSelector.selectApproachNote ctx.ds currentIndex scale
      ((r.1, .approach), { ctx with ds := r.2 })
  else if complexity ≤ 7 / 10 then
    let rep := MotifMemory.shouldRepeatMotif rng motifs complexity ctx.ridx
    let ctx := { ctx with ridx := rep.2 }
    if rep.1 then
      let mo := MotifMemory.getVariedMotif rng motifs ctx.ridx
      let ctx := { ctx with ridx := mo.2 }
      match mo.1 with
      | some (n :: _) => ((n, .motif), ctx)
      | _ => GenerativeMelody.selectElaborateNote ctx currentIndex scale chordTones isStrongBeat
    else GenerativeMelody.selectElaborateNote ctx currentIndex scale chordTones isStrongBeat
  else
    let r := rng ctx.ridx
    let ctx := { ctx with ridx := ctx.ridx + 1 }
    if r < params.dissonanceTolerance ∧ isStrongBeat = false then
      let r2 := rng ctx.ridx
      let ctx := { ctx with ridx := ctx.ridx + 1, needsResolution := true }
      ((NoteSelector.selectDissonantNote r2 lastNote, .dissonant), ctx)
    else if ctx.needsResolution ∧ isStrongBeat then
      ((findNearestChordTone lastNote chordTones scale, .resolution),
       { ctx with needsResolution := false })
    else GenerativeMelody.selectElaborateNote ctx currentIndex scale chordTones isStrongBeat

/-- External collaborators and static configuration of one
`GenerativeMelody` instance: the injected random source, the chord/scale
provider, the pitch-class list `Scale.get` returns for the configured key,
and the beat duration. -/
structure MelodyEnv where
  rng : ℕ → ℚ
  chordTonesForBar : ℕ → ℤ → List Pitch
  chordRootForBar : ℕ → ℕ × ℤ
  scaleNotes : List (ℕ × ℤ)
  beatDuration : ℚ
  config : MelodyConfig

/-- Mutable state of one `GenerativeMelody` instance (`ridx` is the
position in the injected random stream). -/
structure MelodyState where
  complexity : ℚ
  complexityParams : ComplexityParams
  lastNote : Option Pitch
  recentNotes : List Pitch
  needsResolution : Bool
  scheduledNotes : List ℕ
  beatCounter : ℕ
  selector : DirectionState
  phrase : PhraseStructure
  rhythm : RhythmicPattern
  motifMemory : MotifMemory
  ridx : ℕ
deriving DecidableEq

/-- State built by the `GenerativeMelody` constructor. -/
def GenerativeMelody.initialState (env : MelodyEnv) : MelodyState :=
  { complexity := env.config.initialComplexity
    complexityParams :=
      calculateComplexityParams env.config.initialComplexity env.config.complexity
    lastNote := none
    recentNotes := []
    needsResolution := false
    scheduledNotes := []
    beatCounter := 0
    selector := DirectionState.init
    phrase := PhraseStructure.init env.config.barsPerPhrase
    rhythm := RhythmicPattern.init
    motifMemory := ⟨[]⟩
    ridx := 0 }

/-- `GenerativeMelody.setComplexity`: clamp to [0,1] and recompute the five
derived parameters. -/
def GenerativeMelody.setComplexity (cfg : MelodyConfig) (value : ℚ)
    (s : MelodyState) : MelodyState :=
  let c := max 0 (min 1 value)
  { s with complexity := c, complexityParams := calculateComplexityParams c cfg.complexity }

/-- `GenerativeMelody.resetState`: clear the scheduled set, histories and
flags and reset every sub-component (the random-stream position is not
program state and is untouched). -/
def GenerativeMelody.resetState (s : MelodyState) : MelodyState :=
  { s with
    scheduledNotes := []
    lastNote := none
    recentNotes := []
    needsResolution := false
    beatCounter := 0
    phrase := s.phrase.reset
    rhythm := s.rhythm.reset
    motifMemory := s.motifMemory.clear
    selector := DirectionState.init }

/-- `this.noteSelector.getExtendedScale()`: the configured scale over
octaves 4 and 5. -/
def GenerativeMelody.getExtendedScale (env : MelodyEnv) : List Pitch :=
  getFullScale env.scaleNotes 4 ++ getFullScale env.scaleNotes 5

/-- `this.noteSelector.getExtendedChordTones(...)`: the provider's chord
tones for the bar over octaves 4 and 5. -/
def GenerativeMelody.getExtendedChordTones (env : MelodyEnv) (barIndex : ℕ) :
    List Pitch :=
  env.chordTonesForBar barIndex 4 ++ env.chordTonesForBar barIndex 5

/-- The strong-beat flag `GenerativeMelody.getNextNote` computes from the
decision counter (line `const isStrongBeat = this.beatCounter % 4 === 0`). -/
def GenerativeMelody.isStrongBeatOfCounter (beatCounter : ℕ) : Bool :=
  beatCounter % 4 = 0

/-- `GenerativeMelody.getNextNote`: rest decision, first-note rule,
out-of-scale fallback, phrase resolution, then tiered selection with
direction tracking and the range clamp; the phrase advances exactly once on
every path. -/
def GenerativeMelody.getNextNote (env : MelodyEnv) (barIndex : ℕ)
    (s : MelodyState) : Option Pitch × MelodyState :=
  let scale := GenerativeMelody.getExtendedScale env
  let chordTones := GenerativeMelody.getExtendedChordTones env barIndex
  let isStrongBeat := GenerativeMelody.isStrongBeatOfCounter s.beatCounter
  let s := { s with beatCounter := (s.beatCounter + 1) % 8 }
  let rest := NoteSelector.shouldRest env.rng env.config.melodic
    s.complexityParams.restProbability isStrongBeat s.ridx
  let s := { s with ridx := rest.2 }
  if rest.1 then (none, { s with phrase := s.phrase.advance })
  else
    match s.lastNote with
    | none =>
      let r := NoteSelector.selectStartingNote env.rng env.config.melodic chordTones s.ridx
      (some r.1, { s with ridx := r.2, phrase := s.phrase.advance })
    | some lastNote =>
      let currentIndex := NoteSelector.findNoteInScale lastNote scale
      if currentIndex = -1 then
        (some (findNearestChordTone lastNote chordTones scale),
         { s with phrase := s.phrase.advance })
      else if s.phrase.shouldResolve ∧ 3 / 10 ≤ s.complexity then
        let root := env.chordRootForBar barIndex
        (some ⟨root.1, root.2, 4⟩,
         { s with phrase := s.phrase.advance, selector := s.selector.reverse })
      else
        let r := GenerativeMelody.selectNoteByComplexity env.rng s.complexity
          s.complexityParams s.motifMemory lastNote currentIndex scale chordTones
          isStrongBeat ⟨s.selector, s.needsResolution, s.ridx⟩
        let newIndex := NoteSelector.findNoteInScale r.1.1 scale
        let d := NoteSelector.updateDirectionTracking env.rng env.config.melodic
          s.complexity currentIndex newIndex r.2.ds r.2.ridx
        let constrainedNote := NoteSelector.constrainToRange env.config.melodic r.1.1
        (some constrainedNote,
         { s with
            selector := d.1
            ridx := d.2
            needsResolution := r.2.needsResolution
            phrase := s.phrase.advance })

/-- `GenerativeMelody.validateAndNormalizeNote`: normalize, then check the
token grammar `^[A-G][b#]?\d+$` (letter A–G, at most one accidental,
non-negative octave); on failure fall back to the bar's first chord tone. -/
def GenerativeMelody.validateAndNormalizeNote (env : MelodyEnv) (note : Pitch)
    (barIndex : ℕ) : Option Pitch :=
  let note := normalizeNote note
  if note.letter < 7 ∧ -1 ≤ note.alter ∧ note.alter ≤ 1 ∧ 0 ≤ note.octave then
    some note
  else (env.chordTonesForBar barIndex 4).head?

/-- `noteToFrequency` of `utils/noteToFrequency.ts`, up to the final
`440·2^((midi−69)/12)`: the MIDI number the formula is applied to, `none`
when the note token would fail the format check and throw. -/
def noteToFrequencyMidi (p : Pitch) : Option ℤ :=
  let q := p.simplify
  if q.octave < 0 then none
  else some ((q.octave + 1) * 12 + (letterSemis q.letter + q.alter))

/-- A synthesis directive, the observable output of one scheduled note
(frequency represented by the MIDI number the Hz formula is applied to). -/
structure Directive where
  frequencyMidi : ℤ
  startTime : ℚ
  durationSeconds : ℚ
  overlapMs : ℚ
deriving DecidableEq

/-- `GenerativeMelody.updateMotifMemory`: push to the recent-note history
(cap 8), then feed the history to the motif store. -/
def GenerativeMelody.updateMotifMemory (s : MelodyState) (note : Pitch) :
    MelodyState :=
  let recent := s.recentNotes ++ [note]
  let recent := if 8 < recent.length then recent.tail else recent
  { s with recentNotes := recent, motifMemory := s.motifMemory.recordMotif recent }

/-- `GenerativeMelody.scheduleNote` (`scheduleTick` of the spec): duplicate
ticks are no-ops; otherwise the tick is marked scheduled, a note is decided,
validated and converted, and at most one synthesis directive is emitted. -/
def GenerativeMelody.scheduleNote (env : MelodyEnv) (eighthNoteIndex : ℕ)
    (scheduleTime : ℚ) (s : MelodyState) : MelodyState × Option Directive :=
  if eighthNoteIndex ∈ s.scheduledNotes then (s, none)
  else
    let s := { s with scheduledNotes := eighthNoteIndex :: s.scheduledNotes }
    let barIndex := eighthNoteIndex / 8
    let r := GenerativeMelody.getNextNote env barIndex s
    match r.1 with
    | none => (r.2, none)
    | some note0 =>
      match GenerativeMelody.validateAndNormalizeNote env note0 barIndex with
      | none => (r.2, none)
      | some note =>
        match noteToFrequencyMidi note with
        | none => (r.2, none)
        | some freq =>
          let s := r.2
          let dur := RhythmicPattern.getNextDuration env.rng s.rhythm
            s.complexityParams.rhythmicVariation s.ridx
          let noteDuration := RhythmicPattern.parseDuration dur.1 env.beatDuration
          let s := { s with rhythm := dur.2.1, ridx := dur.2.2, lastNote := some note }
          let s := GenerativeMelody.updateMotifMemory s note
          (s, some ⟨freq, scheduleTime, noteDuration, env.config.noteOverlapMs⟩)

/-- A sequence of `scheduleNote` calls, recording each call's tick index and
emitted directive. -/
def GenerativeMelody.runCalls (env : MelodyEnv) :
    List (ℕ × ℚ) → MelodyState → MelodyState × List (ℕ × Option Directive)
  | [], s => (s, [])
  | c :: rest, s =>
    let r := GenerativeMelody.scheduleNote env c.1 c.2 s
    let rr := GenerativeMelody.runCalls env rest r.1
    (rr.1, (c.1, r.2) :: rr.2)

/-- State after presenting ticks `0, 1, …, n-1` in order (at time 0) to a
freshly reset instance. -/
def GenerativeMelody.runTicks (env : MelodyEnv) : ℕ → MelodyState
  | 0 => GenerativeMelody.resetState (GenerativeMelody.initialState env)
  | n + 1 => (GenerativeMelody.scheduleNote env n 0 (GenerativeMelody.runTicks env n)).1

/-! ## Concrete instances used in counterexamples and witnesses -/

/-- Pitch classes `Scale.get("A minor").notes` returns for the configured
key (`CONFIG.key = "A"`): A B C D E F G. -/
def aMinorPCs : List (ℕ × ℤ) := [(5, 0), (6, 0), (0, 0), (1, 0), (2, 0), (3, 0), (4, 0)]

/-- Environment with a provider that supplies the single chord tone G5 and
a constant-1/2 random stream. -/
def envC2 : MelodyEnv :=
  { rng := fun _ => 1 / 2
    chordTonesForBar := fun _ _ => [⟨4, 0, 5⟩]
    chordRootForBar := fun _ => (5, 0)
    scaleNotes := aMinorPCs
    beatDuration := 1 / 2
    config := DEFAULT_MELODY_CONFIG }

/-- Reset state of `envC2` with complexity set to 0. -/
def sC2 : MelodyState :=
  GenerativeMelody.setComplexity DEFAULT_MELODY_CONFIG 0
    (GenerativeMelody.resetState (GenerativeMelody.initialState envC2))

/-- Environment with A-minor-triad chord tones over octaves 4/5 and a
deterministic random stream that fires the dissonance draw on the 5th draw
and the rest draw on the 13th. -/
def envC3 : MelodyEnv :=
  { rng := fun k => if k = 4 ∨ k = 12 then 0 else 1 / 2
    chordTonesForBar := fun _ o =>
      if o = 4 then [⟨5, 0, 4⟩, ⟨0, 0, 5⟩, ⟨2, 0, 5⟩]
      else [⟨5, 0, 5⟩, ⟨0, 0, 6⟩, ⟨2, 0, 6⟩]
    chordRootForBar := fun _ => (5, 0)
    scaleNotes := aMinorPCs
    beatDuration := 1 / 2
    config := DEFAULT_MELODY_CONFIG }

/-- Reset state of `envC3` with complexity set to 1. -/
def sC3 : MelodyState :=
  GenerativeMelody.setComplexity DEFAULT_MELODY_CONFIG 1
    (GenerativeMelody.resetState (GenerativeMelody.initialState envC3))

/-- Environment with a constant-1/5 random stream (between the strong-beat
and weak-beat rest thresholds at the default initial complexity). -/
def envC5 : MelodyEnv :=
  { rng := fun _ => 1 / 5
    chordTonesForBar := fun _ _ => [⟨5, 0, 4⟩]
    chordRootForBar := fun _ => (5, 0)
    scaleNotes := aMinorPCs
    beatDuration := 1 / 2
    config := DEFAULT_MELODY_CONFIG }

/-- Minimal environment for witnesses that never reach the provider. -/
def envTrivial : MelodyEnv :=
  { rng := fun _ => 0
    chordTonesForBar := fun _ _ => []
    chordRootForBar := fun _ => (0, 0)
    scaleNotes := []
    beatDuration := 1
    config := DEFAULT_MELODY_CONFIG }

/-- A state in which tick 3 has already been scheduled. -/
def sSched3 : MelodyState :=
  { GenerativeMelody.initialState envTrivial with scheduledNotes := [3] }

/-- Environment with an in-range chord tone C5 (used to witness the
complexity-0 membership theorem). -/
def envC2w : MelodyEnv :=
  { rng := fun _ => 1 / 2
    chordTonesForBar := fun _ o => if o = 4 then [⟨0, 0, 5⟩] else []
    chordRootForBar := fun _ => (5, 0)
    scaleNotes := aMinorPCs
    beatDuration := 1 / 2
    config := DEFAULT_MELODY_CONFIG }

/-- State at complexity 0 whose last note is A4, one decision after a
reset. -/
def sC2w : MelodyState :=
  { GenerativeMelody.setComplexity DEFAULT_MELODY_CONFIG 0
      (GenerativeMelody.resetState (GenerativeMelody.initialState envC2w)) with
    lastNote := some ⟨5, 0, 4⟩
    beatCounter := 1 }

/-! ## Claim C4: setComplexity -/

/-- C4: `setComplexity(c)` clamps `c` to [0,1] before use, is idempotent
(calling it twice yields exactly the derived parameters of calling it
once), computes the parameters by the fixed linear formulas (in particular
`restProbability = base − clamped(c) × range`), and under the default
configuration all five derived parameters lie in [0,1]. -/
theorem setComplexity_clamp_idempotent_bounded :
    ∀ (cfg : MelodyConfig) (v : ℚ) (s : MelodyState),
      (GenerativeMelody.setComplexity cfg v s).complexity = max 0 (min 1 v) ∧
      GenerativeMelody.setComplexity cfg v (GenerativeMelody.setComplexity cfg v s) =
        GenerativeMelody.setComplexity cfg v s ∧
      (GenerativeMelody.setComplexity cfg v s).complexityParams.restProbability =
        cfg.complexity.restProbabilityBase -
          max 0 (min 1 v) * cfg.complexity.restProbabilityRange ∧
      (GenerativeMelody.setComplexity cfg v s).complexityParams =
        calculateComplexityParams v cfg.complexity ∧
      (0 ≤ (GenerativeMelody.setComplexity DEFAULT_MELODY_CONFIG v s).complexityParams.passingToneProbability ∧
        (GenerativeMelody.setComplexity DEFAULT_MELODY_CONFIG v s).complexityParams.passingToneProbability ≤ 1) ∧
      (0 ≤ (GenerativeMelody.setComplexity DEFAULT_MELODY_CONFIG v s).complexityParams.rhythmicVariation ∧
        (GenerativeMelody.setComplexity DEFAULT_MELODY_CONFIG v s).complexityParams.rhythmicVariation ≤ 1) ∧
      (0 ≤ (GenerativeMelody.setComplexity DEFAULT_MELODY_CONFIG v s).complexityParams.phraseAwareness ∧
        (GenerativeMelody.setComplexity DEFAULT_MELODY_CONFIG v s).complexityParams.phraseAwareness ≤ 1) ∧
      (0 ≤ (GenerativeMelody.setComplexity DEFAULT_MELODY_CONFIG v s).complexityParams.dissonanceTolerance ∧
        (GenerativeMelody.setComplexity DEFAULT_MELODY_CONFIG v s).complexityParams.dissonanceTolerance ≤ 1) ∧
      (0 ≤ (GenerativeMelody.setComplexity DEFAULT_MELODY_CONFIG v s).complexityParams.restProbability ∧
        (GenerativeMelody.setComplexity DEFAULT_MELODY_CONFIG v s).complexityParams.restProbability ≤ 1) := by
  intro cfg v s
  have h0 : (0 : ℚ) ≤ max 0 (min 1 v) := le_max_left _ _
  have h1 : max 0 (min 1 v) ≤ 1 := max_le (by norm_num) (min_le_left _ _)
  have hclamp : max 0 (min 1 (max 0 (min 1 v))) = max 0 (min 1 v) := by
    rw [min_eq_right h1, max_eq_right h0]
  refine ⟨rfl, ?_, ?_, ?_, ?_, ?_, ?_, ?_, ?_⟩
  · simp [GenerativeMelody.setComplexity, calculateComplexityParams, hclamp]
  · simp [GenerativeMelody.setComplexity, calculateComplexityParams, hclamp]
  · simp [GenerativeMelody.setComplexity, calculateComplexityParams, hclamp]
  all_goals
    constructor <;>
      simp only [GenerativeMelody.setComplexity, calculateComplexityParams,
        DEFAULT_MELODY_CONFIG] <;>
      nlinarith [h0, h1]

/-! ## Claim C7: Phrase Tracker -/

/-- A default-configuration phrase tracker (N = 4 bars × 4 beats = 16) at
counter value `k`. -/
def phrase16 (k : ℕ) : PhraseStructure :=
  { PhraseStructure.init DEFAULT_MELODY_CONFIG.barsPerPhrase with currentBeat := k }

/-- One advance of the N=16 tracker. -/
theorem phrase16_advance (k : ℕ) : (phrase16 k).advance = phrase16 ((k + 1) % 16) := rfl

/-- `m` advances of the N=16 tracker (from an in-range counter). -/
theorem phrase16_iterate (k m : ℕ) (hk : k < 16) :
    PhraseStructure.advance^[m] (phrase16 k) = phrase16 ((k + m) % 16) := by
  induction m generalizing k with
  | zero =>
    simp only [Function.iterate_zero, id_eq, Nat.add_zero]
    rw [Nat.mod_eq_of_lt hk]
  | succ m ih =>
    rw [Function.iterate_succ_apply, phrase16_advance,
      ih _ (Nat.mod_lt _ (by norm_num)), Nat.mod_add_mod]
    ring_nf

/-- C7: with the default N = 16, sixteen `advance()` calls return the
counter from any value `k < 16` back to `k`, and `shouldResolve()` holds
exactly when the counter is at 15 — i.e. once per 16-step cycle. -/
theorem phraseTracker_cycle16 :
    ∀ k : ℕ, k < 16 →
      (PhraseStructure.advance^[16] (phrase16 k)).currentBeat = k ∧
      ∀ m : ℕ,
        (PhraseStructure.advance^[m] (phrase16 k)).shouldResolve = true ↔
          (k + m) % 16 = 15 := by
  intro k hk
  constructor
  · rw [phrase16_iterate _ _ hk]
    simp [phrase16, PhraseStructure.init]
    omega
  · intro m
    rw [phrase16_iterate _ _ hk]
    simp [phrase16, PhraseStructure.init, PhraseStructure.shouldResolve,
      DEFAULT_MELODY_CONFIG]

/-- Witness for C7 at `k = 7`, `m = 8`. -/
theorem phraseTracker_cycle16_witness :
    (PhraseStructure.advance^[16] (phrase16 7)).currentBeat = 7 ∧
      ((PhraseStructure.advance^[8] (phrase16 7)).shouldResolve = true ↔
        (7 + 8) % 16 = 15) :=
  ⟨(phraseTracker_cycle16 7 (by norm_num)).1, (phraseTracker_cycle16 7 (by norm_num)).2 8⟩

/-! ## Claim C9: parseDuration -/

/-- C9: with a 0.5 s beat, `parseDuration` returns 0.5 s for "4n", 0.375 s
for "8n.", and the 0.25 s default (half a beat) for the unrecognized token
"bogus"; and on any token matching the grammar `<denom><n|t|h><dot?>`,
beats are `4/denom` for n, `(4/denom)×(2/3)` for t, `denom×2` for h, a
trailing dot multiplies beats by 1.5, and seconds = beats × beat
duration. -/
theorem parseDuration_values_and_grammar :
    RhythmicPattern.parseDuration ['4', 'n'] (1 / 2) = 1 / 2 ∧
    RhythmicPattern.parseDuration ['8', 'n', '.'] (1 / 2) = 3 / 8 ∧
    RhythmicPattern.parseDuration ['b', 'o', 'g', 'u', 's'] (1 / 2) = 1 / 4 ∧
    (∀ (tok : List Char) (d : ℕ) (b : ℚ) (dot : Bool),
      parseDurToken tok = some (d, 'n', dot) → 0 < d →
      RhythmicPattern.parseDuration tok b = 4 / d * (if dot then 3 / 2 else 1) * b) ∧
    (∀ (tok : List Char) (d : ℕ) (b : ℚ) (dot : Bool),
      parseDurToken tok = some (d, 't', dot) → 0 < d →
      RhythmicPattern.parseDuration tok b =
        4 / d * (2 / 3) * (if dot then 3 / 2 else 1) * b) ∧
    (∀ (tok : List Char) (d : ℕ) (b : ℚ) (dot : Bool),
      parseDurToken tok = some (d, 'h', dot) →
      RhythmicPattern.parseDuration tok b = d * 2 * (if dot then 3 / 2 else 1) * b) ∧
    (∀ (tok : List Char) (b : ℚ),
      parseDurToken tok = none → RhythmicPattern.parseDuration tok b = b * (1 / 2)) := by
  refine ⟨by with_unfolding_all rfl, by with_unfolding_all rfl,
    by with_unfolding_all rfl, ?_, ?_, ?_, ?_⟩
  · intro tok d b dot h hd
    rw [RhythmicPattern.parseDuration, h]
    cases dot <;> simp <;> ring
  · intro tok d b dot h hd
    rw [RhythmicPattern.parseDuration, h]
    cases dot <;> simp <;> ring
  · intro tok d b dot h
    rw [RhythmicPattern.parseDuration, h]
    cases dot <;> simp <;> ring
  · intro tok b h
    rw [RhythmicPattern.parseDuration, h]

/-- Witness for C9's grammar clauses at "16n", "8t", "2h." and "x". -/
theorem parseDuration_values_and_grammar_witness :
    RhythmicPattern.parseDuration ['1', '6', 'n'] (1 / 2) =
      4 / (16 : ℕ) * (if false then 3 / 2 else 1) * (1 / 2) ∧
    RhythmicPattern.parseDuration ['8', 't'] (1 / 2) =
      4 / (8 : ℕ) * (2 / 3) * (if false then 3 / 2 else 1) * (1 / 2) ∧
    RhythmicPattern.parseDuration ['2', 'h', '.'] (1 / 2) =
      (2 : ℕ) * 2 * (if true then 3 / 2 else 1) * (1 / 2) ∧
    RhythmicPattern.parseDuration ['x'] (1 / 2) = 1 / 2 * (1 / 2) :=
  ⟨parseDuration_values_and_grammar.2.2.2.1 _ 16 _ false (by decide) (by decide),
   parseDuration_values_and_grammar.2.2.2.2.1 _ 8 _ false (by decide) (by decide),
   parseDuration_values_and_grammar.2.2.2.2.2.1 _ 2 _ true (by decide),
   parseDuration_values_and_grammar.2.2.2.2.2.2 _ _ (by decide)⟩

/-! ## Claim C8: Motif Memory -/

/-- One valid record raises the store size to `min (old + 1) 3`. -/
theorem recordMotif_length (m : MotifMemory) (r : List Pitch) (hr : 3 ≤ r.length)
    (hm : m.motifs.length ≤ 3) :
    (m.recordMotif r).motifs.length = min (m.motifs.length + 1) 3 := by
  rw [MotifMemory.recordMotif, if_pos hr]
  simp only [MotifMemory.maxMotifs]
  split <;> rename_i h <;> simp_all [List.length_tail] <;> omega

/-- Folding valid records keeps the size at `min (old + count) 3`. -/
theorem recordMotif_foldl_length (rs : List (List Pitch)) :
    ∀ m : MotifMemory, (∀ r ∈ rs, 3 ≤ r.length) → m.motifs.length ≤ 3 →
      (rs.foldl MotifMemory.recordMotif m).motifs.length =
        min (m.motifs.length + rs.length) 3 := by
  induction rs with
  | nil =>
    intro m _ hm
    simp only [List.foldl_nil, List.length_nil, Nat.add_zero]
    omega
  | cons r rs ih =>
    intro m hall hm
    have hr : 3 ≤ r.length := hall r (List.mem_cons_self r rs)
    have h1 := recordMotif_length m r hr hm
    rw [List.foldl_cons, ih _ (fun x hx => hall x (List.mem_cons_of_mem _ hx)) (by omega), h1]
    simp only [List.length_cons]
    omega

/-- C8: recording four (or more) sequences of length ≥ 3 leaves exactly 3
stored motifs with the oldest evicted first; `getVariedMotif` returns null
iff the store is empty, else a sequence of the same length as the motif it
recalled. -/
theorem motifMemory_capacity_and_recall :
    (∀ rs : List (List Pitch), (∀ r ∈ rs, 3 ≤ r.length) → 4 ≤ rs.length →
      (rs.foldl MotifMemory.recordMotif ⟨[]⟩).motifs.length = 3) ∧
    (∀ r1 r2 r3 r4 : List Pitch,
      3 ≤ r1.length → 3 ≤ r2.length → 3 ≤ r3.length → 3 ≤ r4.length →
      ((((⟨[]⟩ : MotifMemory).recordMotif r1).recordMotif r2).recordMotif
          r3).recordMotif r4 =
        ⟨[lastFour r2, lastFour r3, lastFour r4]⟩) ∧
    (∀ (rng : ℕ → ℚ) (m : MotifMemory) (ridx : ℕ),
      (MotifMemory.getVariedMotif rng m ridx).1 = none ↔ m.motifs = []) ∧
    (∀ (rng : ℕ → ℚ) (m : MotifMemory) (ridx : ℕ) (res : List Pitch),
      (MotifMemory.getVariedMotif rng m ridx).1 = some res →
      res.length = (MotifMemory.pickedMotif rng m ridx).length) := by
  refine ⟨?_, ?_, ?_, ?_⟩
  · intro rs hall hn
    rw [recordMotif_foldl_length rs ⟨[]⟩ hall (by simp)]
    simp only [List.length_nil, Nat.zero_add]
    omega
  · intro r1 r2 r3 r4 h1 h2 h3 h4
    simp [MotifMemory.recordMotif, h1, h2, h3, h4, MotifMemory.maxMotifs]
  · intro rng m ridx
    rw [MotifMemory.getVariedMotif]
    split <;> rename_i h
    · simp only [true_iff]
      exact List.length_eq_zero.mp h
    · simp only [reduceCtorEq, false_iff]
      intro hc
      rw [hc] at h
      exact h rfl
  · intro rng m ridx res h
    rw [MotifMemory.getVariedMotif] at h
    split at h
    · exact absurd h (by simp)
    · rw [← Option.some.inj h]
      repeat' split
      all_goals simp [MotifMemory.transpose]

/-- Witness for C8 at four concrete three-note records and a one-motif
store. -/
theorem motifMemory_capacity_and_recall_witness :
    ([[⟨5, 0, 4⟩, ⟨6, 0, 4⟩, ⟨0, 0, 5⟩], [⟨5, 0, 4⟩, ⟨6, 0, 4⟩, ⟨0, 0, 5⟩],
        [⟨5, 0, 4⟩, ⟨6, 0, 4⟩, ⟨0, 0, 5⟩],
        [⟨5, 0, 4⟩, ⟨6, 0, 4⟩, ⟨0, 0, 5⟩]].foldl
      MotifMemory.recordMotif ⟨[]⟩).motifs.length = 3 ∧
    ((MotifMemory.getVariedMotif (fun _ => 1 / 2)
        ⟨[[⟨5, 0, 4⟩, ⟨6, 0, 4⟩, ⟨0, 0, 5⟩]]⟩ 0).1 = none ↔
      ([[⟨5, 0, 4⟩, ⟨6, 0, 4⟩, ⟨0, 0, 5⟩]] : List (List Pitch)) = []) :=
  ⟨motifMemory_capacity_and_recall.1 _ (by decide) (by decide),
   motifMemory_capacity_and_recall.2.2.1 _ _ _⟩

/-! ## Claims C1, C10: duplicate suppression and scheduled-tick persistence -/

/-- `getNextNote` never touches the scheduled-tick set. -/
theorem getNextNote_scheduledNotes (env : MelodyEnv) (b : ℕ) (s : MelodyState) :
    (GenerativeMelody.getNextNote env b s).2.scheduledNotes = s.scheduledNotes := by
  rw [GenerativeMelody.getNextNote]
  dsimp only
  repeat' split
  all_goals rfl

/-- `getNextNote` always advances the decision counter modulo 8. -/
theorem getNextNote_beatCounter (env : MelodyEnv) (b : ℕ) (s : MelodyState) :
    (GenerativeMelody.getNextNote env b s).2.beatCounter = (s.beatCounter + 1) % 8 := by
  rw [GenerativeMelody.getNextNote]
  dsimp only
  repeat' split
  all_goals rfl

/-- A duplicate tick is a complete no-op. -/
theorem scheduleNote_of_mem {t : ℕ} {s : MelodyState} (env : MelodyEnv) (time : ℚ)
    (h : t ∈ s.scheduledNotes) :
    GenerativeMelody.scheduleNote env t time s = (s, none) := by
  rw [GenerativeMelody.scheduleNote, if_pos h]

/-- A fresh tick is added to the scheduled set whatever the outcome. -/
theorem scheduleNote_scheduledNotes_of_not_mem {t : ℕ} {s : MelodyState}
    (env : MelodyEnv) (time : ℚ) (h : t ∉ s.scheduledNotes) :
    (GenerativeMelody.scheduleNote env t time s).1.scheduledNotes =
      t :: s.scheduledNotes := by
  rw [GenerativeMelody.scheduleNote, if_neg h]
  have hg := getNextNote_scheduledNotes env (t / 8)
    { s with scheduledNotes := t :: s.scheduledNotes }
  dsimp only
  repeat' split
  all_goals simpa [GenerativeMelody.updateMotifMemory] using hg

/-- After any `scheduleNote t` call, `t` is in the scheduled set. -/
theorem scheduleNote_mem_self (env : MelodyEnv) (t : ℕ) (time : ℚ) (s : MelodyState) :
    t ∈ (GenerativeMelody.scheduleNote env t time s).1.scheduledNotes := by
  by_cases h : t ∈ s.scheduledNotes
  · rw [scheduleNote_of_mem env time h]; exact h
  · rw [scheduleNote_scheduledNotes_of_not_mem env time h]
    exact List.mem_cons_self _ _

/-- The scheduled set only grows under `scheduleNote`. -/
theorem scheduleNote_mem_mono {u : ℕ} {s : MelodyState} (env : MelodyEnv)
    (t : ℕ) (time : ℚ) (h : u ∈ s.scheduledNotes) :
    u ∈ (GenerativeMelody.scheduleNote env t time s).1.scheduledNotes := by
  by_cases ht : t ∈ s.scheduledNotes
  · rw [scheduleNote_of_mem env time ht]; exact h
  · rw [scheduleNote_scheduledNotes_of_not_mem env time ht]
    exact List.mem_cons_of_mem _ h

/-- A directive is only emitted for a tick not yet scheduled. -/
theorem scheduleNote_emits_fresh {t : ℕ} {s : MelodyState} (env : MelodyEnv)
    (time : ℚ) (h : (GenerativeMelody.scheduleNote env t time s).2 ≠ none) :
    t ∉ s.scheduledNotes := by
  intro hmem
  exact h (by rw [scheduleNote_of_mem env time hmem])

/-- Number of directives a call sequence emitted for tick index `t`. -/
def countEmitted (t : ℕ) (l : List (ℕ × Option Directive)) : ℕ :=
  (l.filter fun c => t = c.1 ∧ c.2.isSome).length

/-- Unfolding `countEmitted` over a leading call record. -/
theorem countEmitted_cons (t : ℕ) (x : ℕ × Option Directive)
    (l : List (ℕ × Option Directive)) :
    countEmitted t (x :: l) =
      (if t = x.1 ∧ x.2.isSome then 1 else 0) + countEmitted t l := by
  rw [countEmitted, countEmitted, List.filter_cons]
  split <;> rename_i h
  · rw [if_pos (by simpa using h), List.length_cons]
    omega
  · rw [if_neg (by simpa using h)]
    omega

/-- Once `t` is scheduled, no later call sequence emits anything for `t`. -/
theorem runCalls_countEmitted_zero (env : MelodyEnv) (t : ℕ) :
    ∀ (calls : List (ℕ × ℚ)) (s : MelodyState), t ∈ s.scheduledNotes →
      countEmitted t (GenerativeMelody.runCalls env calls s).2 = 0 := by
  intro calls
  induction calls with
  | nil => intro s _; rfl
  | cons c rest ih =>
    intro s hmem
    rw [GenerativeMelody.runCalls, countEmitted_cons]
    have htail := ih _ (scheduleNote_mem_mono env c.1 c.2 hmem)
    by_cases hc : t = c.1
    · have hnone : (GenerativeMelody.scheduleNote env c.1 c.2 s).2 = none := by
        rw [scheduleNote_of_mem env c.2 (hc ▸ hmem)]
      rw [if_neg (by simp [hnone])]
      simpa using htail
    · rw [if_neg (by simp [hc])]
      simpa using htail

/-- C1: a second `scheduleTick` call with an already-scheduled tick index
emits nothing and leaves the whole orchestrator state unchanged, and across
any call sequence at most one directive is ever emitted per tick index
(between resets). -/
theorem scheduleTick_duplicate_suppression :
    (∀ (env : MelodyEnv) (t : ℕ) (time : ℚ) (s : MelodyState),
      t ∈ s.scheduledNotes → GenerativeMelody.scheduleNote env t time s = (s, none)) ∧
    (∀ (env : MelodyEnv) (calls : List (ℕ × ℚ)) (s : MelodyState) (t : ℕ),
      countEmitted t (GenerativeMelody.runCalls env calls s).2 ≤ 1) := by
  constructor
  · intro env t time s h
    exact scheduleNote_of_mem env time h
  · intro env calls
    induction calls with
    | nil => intro s t; exact Nat.zero_le 1
    | cons c rest ih =>
      intro s t
      rw [GenerativeMelody.runCalls, countEmitted_cons]
      by_cases hc : t = c.1
      · subst hc
        have h0 := runCalls_countEmitted_zero env c.1 rest _
          (scheduleNote_mem_self env c.1 c.2 s)
        rw [h0]
        split <;> omega
      · rw [if_neg (by simp [hc])]
        simpa using ih _ t

/-- Witness for C1: on a state where tick 3 is scheduled, a repeated call is
a no-op, and a two-call sequence for tick 3 emits at most one directive. -/
theorem scheduleTick_duplicate_suppression_witness :
    GenerativeMelody.scheduleNote envTrivial 3 0 sSched3 = (sSched3, none) ∧
    countEmitted 3 (GenerativeMelody.runCalls envTrivial [(3, 0), (3, 1)] sSched3).2 ≤ 1 :=
  ⟨scheduleTick_duplicate_suppression.1 envTrivial 3 0 sSched3 (by decide),
   scheduleTick_duplicate_suppression.2 envTrivial [(3, 0), (3, 1)] sSched3 3⟩

/-- C10: a scheduled tick stays scheduled whether or not a directive was
emitted (rest, validation fallback or conversion failure included), the set
persists across further calls so a skipped tick is never retried, and only
the `start()`/`stop()` reset clears it. -/
theorem scheduleTick_skipped_never_retried :
    ∀ (env : MelodyEnv) (t : ℕ) (time : ℚ) (s : MelodyState),
      t ∈ (GenerativeMelody.scheduleNote env t time s).1.scheduledNotes ∧
      (∀ (u : ℕ) (time' : ℚ) (s' : MelodyState), t ∈ s'.scheduledNotes →
        t ∈ (GenerativeMelody.scheduleNote env u time' s').1.scheduledNotes) ∧
      (∀ (time' : ℚ) (s' : MelodyState), t ∈ s'.scheduledNotes →
        (GenerativeMelody.scheduleNote env t time' s').2 = none) ∧
      (GenerativeMelody.resetState s).scheduledNotes = [] := by
  intro env t time s
  refine ⟨scheduleNote_mem_self env t time s, ?_, ?_, rfl⟩
  · intro u time' s' h
    exact scheduleNote_mem_mono env u time' h
  · intro time' s' h
    rw [scheduleNote_of_mem env time' h]

/-- Witness for C10 at tick 3 on a concrete scheduled state. -/
theorem scheduleTick_skipped_never_retried_witness :
    3 ∈ (GenerativeMelody.scheduleNote envTrivial 3 0 sSched3).1.scheduledNotes ∧
    3 ∈ (GenerativeMelody.scheduleNote envTrivial 7 0 sSched3).1.scheduledNotes ∧
    (GenerativeMelody.scheduleNote envTrivial 3 1 sSched3).2 = none :=
  ⟨(scheduleTick_skipped_never_retried envTrivial 3 0 sSched3).1,
   (scheduleTick_skipped_never_retried envTrivial 3 0 sSched3).2.1 7 0 sSched3 (by decide),
   (scheduleTick_skipped_never_retried envTrivial 3 0 sSched3).2.2.1 1 sSched3 (by decide)⟩

/-! ## Claim C5: beat position -/

/-- On a fresh tick, `scheduleNote` advances the decision counter modulo 8. -/
theorem scheduleNote_beatCounter_of_not_mem {t : ℕ} {s : MelodyState}
    (env : MelodyEnv) (time : ℚ) (h : t ∉ s.scheduledNotes) :
    (GenerativeMelody.scheduleNote env t time s).1.beatCounter =
      (s.beatCounter + 1) % 8 := by
  rw [GenerativeMelody.scheduleNote, if_neg h]
  have hg := getNextNote_beatCounter env (t / 8)
    { s with scheduledNotes := t :: s.scheduledNotes }
  dsimp only
  repeat' split
  all_goals simpa [GenerativeMelody.updateMotifMemory] using hg

/-- After presenting ticks `0..n-1` in order, exactly those ticks are
scheduled. -/
theorem runTicks_mem (env : MelodyEnv) :
    ∀ n u : ℕ, u ∈ (GenerativeMelody.runTicks env n).scheduledNotes ↔ u < n := by
  intro n
  induction n with
  | zero => intro u; simp [GenerativeMelody.runTicks, GenerativeMelody.resetState]
  | succ n ih =>
    intro u
    rw [GenerativeMelody.runTicks,
      scheduleNote_scheduledNotes_of_not_mem env 0 (fun hmem => by simp [ih] at hmem)]
    simp only [List.mem_cons, ih]
    omega

/-- After presenting ticks `0..n-1` in order, the decision counter is
`n % 8`. -/
theorem runTicks_beatCounter (env : MelodyEnv) :
    ∀ n : ℕ, (GenerativeMelody.runTicks env n).beatCounter = n % 8 := by
  intro n
  induction n with
  | zero => rfl
  | succ n ih =>
    rw [GenerativeMelody.runTicks,
      scheduleNote_beatCounter_of_not_mem env 0 (fun hmem => by
        simp [runTicks_mem] at hmem), ih, Nat.add_mod n 1 8]

/-- C5 (amended): the beat position used by a decision is derived from the
count of decisions since the last reset, not from the tick index itself;
when ticks are presented consecutively from 0 after a reset the two agree:
before processing tick `n` the counter is `n % 8`, and the strong-beat flag
used is set exactly when `n % 8` is 0 or 4. -/
theorem beatPosition_follows_decision_count :
    ∀ (env : MelodyEnv) (n : ℕ),
      (GenerativeMelody.runTicks env n).beatCounter = n % 8 ∧
      (GenerativeMelody.isStrongBeatOfCounter
          (GenerativeMelody.runTicks env n).beatCounter = true ↔
        (n % 8 = 0 ∨ n % 8 = 4)) := by
  intro env n
  refine ⟨runTicks_beatCounter env n, ?_⟩
  rw [runTicks_beatCounter env n]
  simp only [GenerativeMelody.isStrongBeatOfCounter, decide_eq_true_eq]
  omega

/-- Counterexample to C5 as stated: after a reset, presenting tick index 5
first makes the decision use the strong-beat flag (the decision counter is
0) although `5 mod 8 = 5` is neither 0 nor 4 — with a draw of 1/5 the call
emits a directive, whereas the weak-beat rest probability the claim
prescribes for position 5 would have produced a rest. -/
theorem beatPosition_counterexample :
    ¬(5 % 8 = 0 ∨ 5 % 8 = 4) ∧
    GenerativeMelody.isStrongBeatOfCounter
      (GenerativeMelody.runTicks envC5 0).beatCounter = true ∧
    (GenerativeMelody.scheduleNote envC5 5 0
      (GenerativeMelody.runTicks envC5 0)).2.isSome = true ∧
    (NoteSelector.shouldRest envC5.rng envC5.config.melodic
      (GenerativeMelody.runTicks envC5 0).complexityParams.restProbability false
      (GenerativeMelody.runTicks envC5 0).ridx).1 = true := by
  refine ⟨by decide, by with_unfolding_all rfl, ?_, by with_unfolding_all rfl⟩
  with_unfolding_all rfl

/-! ## Claim C2: complexity 0 selects chord tones -/

/-- A fold whose step keeps the accumulator's pick or replaces it by the
current element stays inside any superset of the list. -/
theorem foldl_step_snd_mem {β : Type} (step : β × Pitch → Pitch → β × Pitch)
    (hstep : ∀ acc t, (step acc t).2 = acc.2 ∨ (step acc t).2 = t) :
    ∀ (l : List Pitch) (acc : β × Pitch) (S : List Pitch),
      (∀ x ∈ l, x ∈ S) → acc.2 ∈ S → (l.foldl step acc).2 ∈ S := by
  intro l
  induction l with
  | nil => intro acc S _ h; exact h
  | cons x xs ih =>
    intro acc S hsub hacc
    rw [List.foldl_cons]
    refine ih _ S (fun y hy => hsub y (List.mem_cons_of_mem _ hy)) ?_
    rcases hstep acc x with h | h
    · rw [h]; exact hacc
    · rw [h]; exact hsub x (List.mem_cons_self _ _)

/-- `selectSimpleChordTone` always returns a member of a non-empty chord
tone set. -/
theorem selectSimpleChordTone_mem (ds : DirectionState) (fromNote : Pitch)
    (chordTones scale : List Pitch) (h : chordTones ≠ []) :
    NoteSelector.selectSimpleChordTone ds fromNote chordTones scale ∈ chordTones := by
  rw [NoteSelector.selectSimpleChordTone.eq_def]
  match chordTones, h with
  | t0 :: rest, _ =>
    have h1 : ((t0 :: rest).foldl (sctLoop1 fromNote) (none, t0)).2 ∈ t0 :: rest :=
      foldl_step_snd_mem _
        (fun acc t => by
          rw [sctLoop1]
          repeat' split
          all_goals first
          | (left; rfl)
          | (right; rfl))
        _ _ _ (fun x hx => hx) (List.mem_cons_self _ _)
    dsimp only
    split
    · split
      · exact foldl_step_snd_mem _
          (fun acc t => by
            rw [sctLoop2]
            dsimp only
            repeat' split
            all_goals first
            | (left; rfl)
            | (right; rfl))
          _ _ _ (fun x hx => hx) h1
      · exact h1
    · exact h1

/-- `findNearestChordTone` always returns a member of a non-empty chord
tone set. -/
theorem findNearestChordTone_mem (fromNote : Pitch) (chordTones scale : List Pitch)
    (h : chordTones ≠ []) :
    findNearestChordTone fromNote chordTones scale ∈ chordTones := by
  rw [findNearestChordTone.eq_def]
  match chordTones, h with
  | t0 :: rest, _ =>
    exact foldl_step_snd_mem _
      (fun acc t => by
        rw [fncStep]
        repeat' split
        all_goals first
        | (left; rfl)
        | (right; rfl))
      _ _ _ (fun x hx => hx) (List.mem_cons_self _ _)

/-- The range clamp either keeps the note or moves it down an octave (its
below-floor branch is unreachable because distances are absolute). -/
theorem constrainToRange_cases (cfg : MelodicBehavior) (note : Pitch) :
    NoteSelector.constrainToRange cfg note = note ∨
      NoteSelector.constrainToRange cfg note = transposeNote note (-12) := by
  rw [NoteSelector.constrainToRange]
  dsimp only
  rw [if_neg (not_lt.mpr (Int.natCast_nonneg _))]
  split
  · right; rfl
  · left; rfl

/-- The range clamp is the identity on notes within the configured range
span of the floor pitch. -/
theorem constrainToRange_of_le (cfg : MelodicBehavior) (note : Pitch)
    (h : getIntervalSemitones cfg.minRange note ≤
      getIntervalSemitones cfg.minRange cfg.maxRange) :
    NoteSelector.constrainToRange cfg note = note := by
  rw [NoteSelector.constrainToRange]
  dsimp only
  rw [if_neg (not_lt.mpr (Int.natCast_nonneg _)), if_neg (not_lt.mpr h)]

/-- C2 (amended): at complexity 0, every note selected after the first is a
chord tone before the range clamp; the emitted note is that chord tone
possibly transposed down one octave by the clamp, and whenever every
supplied chord tone lies within the configured range span the selected note
is itself a member of the chord-tone set. -/
theorem complexity0_selects_chordTones :
    ∀ (env : MelodyEnv) (b : ℕ) (s : MelodyState) (ln note : Pitch) (s' : MelodyState),
      s.complexity = 0 →
      s.lastNote = some ln →
      GenerativeMelody.getExtendedChordTones env b ≠ [] →
      GenerativeMelody.getNextNote env b s = (some note, s') →
      ∃ ct ∈ GenerativeMelody.getExtendedChordTones env b,
        (note = ct ∨ note = transposeNote ct (-12)) ∧
        ((∀ u ∈ GenerativeMelody.getExtendedChordTones env b,
            getIntervalSemitones env.config.melodic.minRange u ≤
              getIntervalSemitones env.config.melodic.minRange
                env.config.melodic.maxRange) →
          note = ct) := by
  intro env b s ln note s' hc hln hne hgn
  rw [GenerativeMelody.getNextNote] at hgn
  dsimp only at hgn
  rw [hln] at hgn
  split at hgn
  · exact absurd (congrArg Prod.fst hgn) (by simp)
  · dsimp only at hgn
    split at hgn
    · -- last note outside the scale: nearest chord tone, no clamp
      rename_i hidx
      have hnote : note = findNearestChordTone ln
          (GenerativeMelody.getExtendedChordTones env b)
          (GenerativeMelody.getExtendedScale env) :=
        (Option.some.inj (congrArg Prod.fst hgn)).symm
      refine ⟨note, hnote ▸ findNearestChordTone_mem _ _ _ hne, Or.inl rfl, fun _ => rfl⟩
    · split at hgn
      · -- phrase resolution requires complexity ≥ 0.3
        rename_i hres
        rw [hc] at hres
        exact absurd hres.2 (by norm_num)
      · rw [hc, GenerativeMelody.selectNoteByComplexity,
          if_pos (by norm_num : (0 : ℚ) ≤ 1 / 10)] at hgn
        dsimp only at hgn
        have hnote : note = NoteSelector.constrainToRange env.config.melodic
            (NoteSelector.selectSimpleChordTone s.selector ln
              (GenerativeMelody.getExtendedChordTones env b)
              (GenerativeMelody.getExtendedScale env)) :=
          (Option.some.inj (congrArg Prod.fst hgn)).symm
        refine ⟨NoteSelector.selectSimpleChordTone s.selector ln
            (GenerativeMelody.getExtendedChordTones env b)
            (GenerativeMelody.getExtendedScale env),
          selectSimpleChordTone_mem _ _ _ _ hne, ?_, ?_⟩
        · rw [hnote]
          exact constrainToRange_cases _ _
        · intro hin
          rw [hnote]
          exact constrainToRange_of_le _ _
            (hin _ (selectSimpleChordTone_mem _ _ _ _ hne))

/-- Witness for C2's amended theorem: at complexity 0 with an in-range
chord-tone set the selected note is the chord tone C5 itself. -/
theorem complexity0_selects_chordTones_witness :
    ∃ ct ∈ GenerativeMelody.getExtendedChordTones envC2w 0,
      ((⟨0, 0, 5⟩ : Pitch) = ct ∨ (⟨0, 0, 5⟩ : Pitch) = transposeNote ct (-12)) ∧
      ((∀ u ∈ GenerativeMelody.getExtendedChordTones envC2w 0,
          getIntervalSemitones envC2w.config.melodic.minRange u ≤
            getIntervalSemitones envC2w.config.melodic.minRange
              envC2w.config.melodic.maxRange) →
        (⟨0, 0, 5⟩ : Pitch) = ct) :=
  complexity0_selects_chordTones envC2w 0 sC2w ⟨5, 0, 4⟩ ⟨0, 0, 5⟩
    (GenerativeMelody.getNextNote envC2w 0 sC2w).2
    (by with_unfolding_all rfl) (by with_unfolding_all rfl)
    (by with_unfolding_all decide) (by with_unfolding_all rfl)

/-- Counterexample to C2 as stated: with the provider's chord-tone set
{G5}, the first note selected is G5 (a member), but the second selection
returns G5 and the range clamp then transposes it to G4, which is not in
the chord-tone set — so after the clamp the selected note can leave the
set. -/
theorem complexity0_range_clamp_counterexample :
    (GenerativeMelody.scheduleNote envC2 0 0 sC2).1.lastNote = some ⟨4, 0, 5⟩ ∧
    (⟨4, 0, 5⟩ : Pitch) ∈ GenerativeMelody.getExtendedChordTones envC2 0 ∧
    sC2.complexity = 0 ∧
    (GenerativeMelody.scheduleNote envC2 1 0
      (GenerativeMelody.scheduleNote envC2 0 0 sC2).1).2.isSome = true ∧
    (GenerativeMelody.scheduleNote envC2 1 0
      (GenerativeMelody.scheduleNote envC2 0 0 sC2).1).1.lastNote = some ⟨4, 0, 4⟩ ∧
    (⟨4, 0, 4⟩ : Pitch) ∉ GenerativeMelody.getExtendedChordTones envC2 0 ∧
    GenerativeMelody.getExtendedChordTones envC2 0 ≠ [] := by
  refine ⟨?_, ?_, ?_, ?_, ?_, ?_, ?_⟩
  · with_unfolding_all rfl
  · with_unfolding_all decide
  · with_unfolding_all rfl
  · with_unfolding_all rfl
  · with_unfolding_all rfl
  · with_unfolding_all decide
  · with_unfolding_all decide

/-! ## Claim C3: dissonance and resolution at tier 5 -/

/-- C3 (amended): at tier (0.7,1.0], a dissonant note is only ever selected
on a non-strong beat, setting the resolution flag, and it is a chromatic
neighbor (±1 semitone) of the last note; on a strong beat reached by the
tier dispatch with the flag set, the nearest chord tone is forced and the
flag cleared.  (A rest or another early return on the strong beat can defer
the resolution, see the counterexample.) -/
theorem dissonance_weak_beat_resolution_strong_beat :
    ∀ (rng : ℕ → ℚ) (c : ℚ) (params : ComplexityParams) (motifs : MotifMemory)
      (lastNote : Pitch) (currentIndex : ℤ) (scale chordTones : List Pitch)
      (isStrong : Bool) (ctx : SelCtx),
      7 / 10 < c →
      ((GenerativeMelody.selectNoteByComplexity rng c params motifs lastNote
          currentIndex scale chordTones isStrong ctx).1.2 = NoteSource.dissonant →
        isStrong = false ∧
        (GenerativeMelody.selectNoteByComplexity rng c params motifs lastNote
          currentIndex scale chordTones isStrong ctx).2.needsResolution = true ∧
        ∃ d : ℤ, (d = 1 ∨ d = -1) ∧
          (GenerativeMelody.selectNoteByComplexity rng c params motifs lastNote
            currentIndex scale chordTones isStrong ctx).1.1 = transposeNote lastNote d) ∧
      (isStrong = true → ctx.needsResolution = true →
        (GenerativeMelody.selectNoteByComplexity rng c params motifs lastNote
          currentIndex scale chordTones isStrong ctx).1 =
          (findNearestChordTone lastNote chordTones scale, NoteSource.resolution) ∧
        (GenerativeMelody.selectNoteByComplexity rng c params motifs lastNote
          currentIndex scale chordTones isStrong ctx).2.needsResolution = false) := by
  intro rng c params motifs lastNote currentIndex scale chordTones isStrong ctx hc
  rw [GenerativeMelody.selectNoteByComplexity, if_neg (by linarith), if_neg (by linarith),
    if_neg (by linarith), if_neg (by linarith)]
  dsimp only
  split
  · rename_i hcond
    constructor
    · intro _
      refine ⟨hcond.2, rfl, ?_⟩
      rw [NoteSelector.selectDissonantNote]
      by_cases hr : rng (ctx.ridx + 1) < 1 / 2
      · exact ⟨1, Or.inl rfl, by rw [if_pos hr]⟩
      · exact ⟨-1, Or.inr rfl, by rw [if_neg hr]⟩
    · intro hS _
      rw [hS] at hcond
      exact absurd hcond.2 (by simp)
  · split
    · constructor
      · intro hsrc
        exact absurd hsrc (by simp)
      · intro _ _
        exact ⟨rfl, rfl⟩
    · rename_i hcond1 hcond2
      constructor
      · intro hsrc
        rw [GenerativeMelody.selectElaborateNote] at hsrc
        split at hsrc <;> exact absurd hsrc (by simp)
      · intro hS hR
        exact absurd ⟨hR, hS⟩ hcond2

/-- Intermediate states of the tier-5 counterexample run (ticks 0–4 of
`envC3` at complexity 1). -/
def c3s1 : MelodyState := (GenerativeMelody.scheduleNote envC3 0 0 sC3).1

/-- Second call of the counterexample run (the dissonant note). -/
def c3r2 : MelodyState × Option Directive := GenerativeMelody.scheduleNote envC3 1 0 c3s1

/-- State after the dissonant note. -/
def c3s2 : MelodyState := c3r2.1

/-- State after tick 2. -/
def c3s3 : MelodyState := (GenerativeMelody.scheduleNote envC3 2 0 c3s2).1

/-- State after tick 3. -/
def c3s4 : MelodyState := (GenerativeMelody.scheduleNote envC3 3 0 c3s3).1

/-- Fifth call of the counterexample run (the strong-beat rest). -/
def c3r5 : MelodyState × Option Directive := GenerativeMelody.scheduleNote envC3 4 0 c3s4

/-- Counterexample to C3 as stated: at complexity 1.0 under a deterministic
injected random source, tick 1 (a weak beat) emits the dissonant chromatic
neighbor G#4 and sets the resolution flag, but the next strong beat (tick
4) is a rest: no chord tone is emitted there and the flag is still set
after it — the promised resolution by the next strong beat does not
happen. -/
theorem dissonance_resolution_counterexample :
    GenerativeMelody.isStrongBeatOfCounter c3s1.beatCounter = false ∧
    c3r2.2.isSome = true ∧
    c3s2.lastNote = some ⟨4, 1, 4⟩ ∧
    c3s2.needsResolution = true ∧
    (⟨4, 1, 4⟩ : Pitch) ∉ GenerativeMelody.getExtendedChordTones envC3 0 ∧
    GenerativeMelody.isStrongBeatOfCounter c3s4.beatCounter = true ∧
    c3r5.2 = none ∧
    c3r5.1.needsResolution = true := by
  refine ⟨?_, ?_, ?_, ?_, ?_, ?_, ?_, ?_⟩
  · with_unfolding_all rfl
  · with_unfolding_all rfl
  · with_unfolding_all rfl
  · with_unfolding_all rfl
  · with_unfolding_all decide
  · with_unfolding_all rfl
  · with_unfolding_all rfl
  · with_unfolding_all rfl

/-- The A-minor two-octave extended scale. -/
def amScale : List Pitch := getFullScale aMinorPCs 4 ++ getFullScale aMinorPCs 5

/-- A fresh selection context. -/
def ctx0 : SelCtx := ⟨DirectionState.init, false, 0⟩

/-- Witness for C3's amended theorem: on a strong beat with the flag set at
complexity 1, the selection is the nearest-chord-tone resolution and the
flag is cleared. -/
theorem dissonance_weak_beat_resolution_strong_beat_witness :
    (GenerativeMelody.selectNoteByComplexity (fun _ => 1 / 2) 1
        (calculateComplexityParams 1 DEFAULT_MELODY_CONFIG.complexity) ⟨[]⟩
        ⟨5, 0, 4⟩ 0 amScale [⟨0, 0, 5⟩] true ⟨DirectionState.init, true, 0⟩).1 =
      (findNearestChordTone ⟨5, 0, 4⟩ [⟨0, 0, 5⟩] amScale, NoteSource.resolution) ∧
    (GenerativeMelody.selectNoteByComplexity (fun _ => 1 / 2) 1
        (calculateComplexityParams 1 DEFAULT_MELODY_CONFIG.complexity) ⟨[]⟩
        ⟨5, 0, 4⟩ 0 amScale [⟨0, 0, 5⟩] true ⟨DirectionState.init, true, 0⟩).2.needsResolution =
      false :=
  (dissonance_weak_beat_resolution_strong_beat (fun _ => 1 / 2) 1 _ _ _ _ _ _ _ _
    (by norm_num)).2 rfl rfl

/-! ## Claim C6: tier (0.5,0.7] without motif recall -/

/-- Without a granted motif recall, tier 4 reduces to
`selectElaborateNote`. -/
theorem selectNote_tier4_no_recall :
    ∀ (rng : ℕ → ℚ) (c : ℚ) (params : ComplexityParams) (motifs : MotifMemory)
      (lastNote : Pitch) (currentIndex : ℤ) (scale chordTones : List Pitch)
      (isStrong : Bool) (ctx : SelCtx),
      1 / 2 < c → c ≤ 7 / 10 →
      (MotifMemory.shouldRepeatMotif rng motifs c ctx.ridx).1 = false →
      GenerativeMelody.selectNoteByComplexity rng c params motifs lastNote
        currentIndex scale chordTones isStrong ctx =
        GenerativeMelody.selectElaborateNote
          { ctx with ridx := (MotifMemory.shouldRepeatMotif rng motifs c ctx.ridx).2 }
          currentIndex scale chordTones isStrong := by
  intro rng c params motifs lastNote currentIndex scale chordTones isStrong ctx h1 h2 hrep
  rw [GenerativeMelody.selectNoteByComplexity, if_neg (by linarith),
    if_neg (by linarith), if_neg (by linarith), if_pos h2]
  dsimp only
  rw [hrep]
  simp

/-- C6 (amended): in tier (0.5,0.7] with motif recall not granted, the
weak-beat behavior matches tier (0.3,0.5] (one approach step in the current
direction), but the strong-beat behavior does not: one scale step toward
the nearest chord tone is selected instead of a directional chord tone. -/
theorem tier4_fallback_weak_matches_tier3 :
    ∀ (rng : ℕ → ℚ) (c c' : ℚ) (params params' : ComplexityParams)
      (motifs : MotifMemory) (lastNote : Pitch) (currentIndex : ℤ)
      (scale chordTones : List Pitch) (ctx : SelCtx),
      1 / 2 < c → c ≤ 7 / 10 → 3 / 10 < c' → c' ≤ 1 / 2 →
      (MotifMemory.shouldRepeatMotif rng motifs c ctx.ridx).1 = false →
      ((GenerativeMelody.selectNoteByComplexity rng c params motifs lastNote
          currentIndex scale chordTones false ctx).1.1 =
        (GenerativeMelody.selectNoteByComplexity rng c' params' motifs lastNote
          currentIndex scale chordTones false ctx).1.1) ∧
      ((GenerativeMelody.selectNoteByComplexity rng c params motifs lastNote
          currentIndex scale chordTones true ctx).1.1 =
        NoteSelector.selectScaleStepTowardChordTone ctx.ds currentIndex scale
          chordTones) := by
  intro rng c c' params params' motifs lastNote currentIndex scale chordTones ctx
    h1 h2 h3 h4 hrep
  rw [selectNote_tier4_no_recall rng c params motifs lastNote currentIndex scale
    chordTones false ctx h1 h2 hrep,
    selectNote_tier4_no_recall rng c params motifs lastNote currentIndex scale
    chordTones true ctx h1 h2 hrep]
  rw [GenerativeMelody.selectNoteByComplexity,
    if_neg (show ¬c' ≤ 1 / 10 by linarith),
    if_neg (show ¬c' ≤ 3 / 10 by linarith),
    if_pos (show c' ≤ 5 / 10 by linarith)]
  rw [GenerativeMelody.selectElaborateNote, GenerativeMelody.selectElaborateNote]
  simp

/-- Counterexample to C6 as stated: from last note A4 (scale index 0) with
chord tones {E5} on a strong beat and an empty motif store (recall not
granted), tier 4 at complexity 0.6 selects the scale step B4 while tier 3
at complexity 0.45 selects the directional chord tone E5 — the two tiers do
not behave identically. -/
theorem tier4_vs_tier3_strong_counterexample :
    (GenerativeMelody.selectNoteByComplexity (fun _ => 1 / 2) (6 / 10)
        (calculateComplexityParams (6 / 10) DEFAULT_MELODY_CONFIG.complexity) ⟨[]⟩
        ⟨5, 0, 4⟩ 0 amScale [⟨2, 0, 5⟩] true ctx0).1.1 = ⟨6, 0, 4⟩ ∧
    (GenerativeMelody.selectNoteByComplexity (fun _ => 1 / 2) (45 / 100)
        (calculateComplexityParams (45 / 100) DEFAULT_MELODY_CONFIG.complexity) ⟨[]⟩
        ⟨5, 0, 4⟩ 0 amScale [⟨2, 0, 5⟩] true ctx0).1.1 = ⟨2, 0, 5⟩ ∧
    (⟨6, 0, 4⟩ : Pitch) ≠ ⟨2, 0, 5⟩ := by
  refine ⟨?_, ?_, by decide⟩
  · with_unfolding_all rfl
  · with_unfolding_all rfl

/-- Witness for C6's amended theorem at complexity 0.6 vs 0.45, empty motif
store, last note A4, chord tones {E5}. -/
theorem tier4_fallback_weak_matches_tier3_witness :
    ((GenerativeMelody.selectNoteByComplexity (fun _ => 1 / 2) (6 / 10)
        (calculateComplexityParams (6 / 10) DEFAULT_MELODY_CONFIG.complexity) ⟨[]⟩
        ⟨5, 0, 4⟩ 0 amScale [⟨2, 0, 5⟩] false ctx0).1.1 =
      (GenerativeMelody.selectNoteByComplexity (fun _ => 1 / 2) (45 / 100)
        (calculateComplexityParams (45 / 100) DEFAULT_MELODY_CONFIG.complexity) ⟨[]⟩
        ⟨5, 0, 4⟩ 0 amScale [⟨2, 0, 5⟩] false ctx0).1.1) ∧
    ((GenerativeMelody.selectNoteByComplexity (fun _ => 1 / 2) (6 / 10)
        (calculateComplexityParams (6 / 10) DEFAULT_MELODY_CONFIG.complexity) ⟨[]⟩
        ⟨5, 0, 4⟩ 0 amScale [⟨2, 0, 5⟩] true ctx0).1.1 =
      NoteSelector.selectScaleStepTowardChordTone ctx0.ds 0 amScale [⟨2, 0, 5⟩]) :=
  tier4_fallback_weak_matches_tier3 (fun _ => 1 / 2) (6 / 10) (45 / 100) _ _ ⟨[]⟩
    ⟨5, 0, 4⟩ 0 amScale [⟨2, 0, 5⟩] ctx0 (by norm_num) (by norm_num) (by norm_num)
    (by norm_num) rfl

/-- Witness for C4 at `v = 2` (clamped to 1) on a concrete state. -/
theorem setComplexity_clamp_idempotent_bounded_witness :
    (GenerativeMelody.setComplexity DEFAULT_MELODY_CONFIG 2
        (GenerativeMelody.initialState envTrivial)).complexity = max 0 (min 1 2) ∧
    GenerativeMelody.setComplexity DEFAULT_MELODY_CONFIG 2
        (GenerativeMelody.setComplexity DEFAULT_MELODY_CONFIG 2
          (GenerativeMelody.initialState envTrivial)) =
      GenerativeMelody.setComplexity DEFAULT_MELODY_CONFIG 2
        (GenerativeMelody.initialState envTrivial) :=
  ⟨(setComplexity_clamp_idempotent_bounded DEFAULT_MELODY_CONFIG 2
      (GenerativeMelody.initialState envTrivial)).1,
   (setComplexity_clamp_idempotent_bounded DEFAULT_MELODY_CONFIG 2
      (GenerativeMelody.initialState envTrivial)).2.1⟩

/-- Witness for C5's amended theorem after twelve in-order ticks. -/
theorem beatPosition_follows_decision_count_witness :
    (GenerativeMelody.runTicks envC5 12).beatCounter = 12 % 8 ∧
    (GenerativeMelody.isStrongBeatOfCounter
        (GenerativeMelody.runTicks envC5 12).beatCounter = true ↔
      (12 % 8 = 0 ∨ 12 % 8 = 4)) :=
  ⟨(beatPosition_follows_decision_count envC5 12).1,
   (beatPosition_follows_decision_count envC5 12).2⟩
